import Mathlib

/-!
Shallow embedding of `src/backend/script/subscribe-backend.py` (wis2-downloader-gui
backend), together with proofs about the claims of the specification.

Conventions of the embedding:
* Python strings used in path computations are modelled as `List Char`
  (paths are manipulated character by character by `pathlib`); strings used
  only as opaque keys or log payloads are Lean `String`s.
* `pathlib.PurePosixPath` is modelled by `PyPath`: an absolute flag plus the
  list of path segments, with `Path(...)` parsing dropping empty and `"."`
  segments and a later absolute component discarding everything before it,
  exactly as `pathlib` joining does on POSIX.
* Fallible Python code (raised exceptions) is modelled with `Except`;
  a `try/except` block that only logs is modelled by a total function that
  emits the corresponding log events.
* External collaborators (`hashlib` algorithm lookup, the HTTP pool, the
  filesystem, `json.loads`) are parameters of the functions that call them,
  so theorems quantify over their behaviour.
-/

namespace Wis2

/-! ### Digits and zero padding (embedding of `get_todays_date`, lines 114-123) -/

def digitChars : List Char := ['0', '1', '2', '3', '4', '5', '6', '7', '8', '9']

def digitChar (k : Nat) : Char := digitChars.getD k '0'

/-- Decimal digits of `n`, most significant first; `fuel` bounds the recursion. -/
def natCharsAux : Nat → Nat → List Char
  | 0, _ => []
  | _ + 1, 0 => []
  | f + 1, n + 1 => natCharsAux f ((n + 1) / 10) ++ [digitChar ((n + 1) % 10)]

def natChars (n : Nat) : List Char :=
  if n = 0 then ['0'] else natCharsAux n n

/-- Python `f"{n:0w}"`: left pad the decimal form of `n` with zeros to width `w`. -/
def padNum (w n : Nat) : List Char :=
  List.replicate (w - (natChars n).length) '0' ++ natChars n

/-- Embeds `get_todays_date` (lines 114-123): the wall clock is a parameter
`(y, m, d)`; the source formats it as `f"{yyyy}/{mm}/{dd}"` with zero padding. -/
def get_todays_date (y m d : Nat) : List Char :=
  padNum 4 y ++ '/' :: (padNum 2 m ++ '/' :: padNum 2 d)

/-! ### POSIX `pathlib` model -/

/-- Split a character list on `'/'`; always returns at least one segment. -/
def splitOnSlash : List Char → List (List Char)
  | [] => [[]]
  | c :: rest =>
    if c = '/' then [] :: splitOnSlash rest
    else
      match splitOnSlash rest with
      | [] => [[c]]
      | s :: ss => (c :: s) :: ss

/-- `pathlib` keeps a segment unless it is empty or `"."`. -/
def keepSeg (s : List Char) : Bool := decide (s ≠ [] ∧ s ≠ ['.'])

def parseSegs (cs : List Char) : List (List Char) :=
  (splitOnSlash cs).filter keepSeg

def isAbs : List Char → Bool
  | [] => false
  | c :: _ => c = '/'

/-- Model of `pathlib.PurePosixPath`: absolute flag plus normalized segments. -/
structure PyPath where
  absolute : Bool
  segs : List (List Char)
  deriving DecidableEq, Repr

/-- `Path(s)` for a single string argument. -/
def parsePathL (cs : List Char) : PyPath :=
  ⟨isAbs cs, parseSegs cs⟩

def intercalateSegs : List (List Char) → List Char
  | [] => []
  | [s] => s
  | s :: rest => s ++ '/' :: intercalateSegs rest

/-- `str(path)` for the `PyPath` model (`str(Path("")) = "."`). -/
def pathStrL (p : PyPath) : List Char :=
  match p.segs with
  | [] => if p.absolute then ['/'] else ['.']
  | s :: rest => (if p.absolute then ['/'] else []) ++ intercalateSegs (s :: rest)

/-- `Path(a, b)`: a later absolute component discards everything before it. -/
def joinPath (a b : PyPath) : PyPath :=
  if b.absolute then b else ⟨a.absolute, a.segs ++ b.segs⟩

/-- `path.parent` (drop the last segment). -/
def parentPath (p : PyPath) : PyPath :=
  ⟨p.absolute, p.segs.dropLast⟩

/-- `str.replace(":", "")`: remove every colon. -/
def removeColons (cs : List Char) : List Char :=
  cs.filter (fun c => decide (c ≠ ':'))

/-- Lines 154-156: `dataid = Path(job[...]["data_id"]); dataid = Path(str(dataid).replace(":", ""))`.
This is the colon-stripped, `pathlib`-normalized data id (still as characters,
before the final `Path` around it). -/
def normalizeDataId (d : List Char) : List Char :=
  removeColons (pathStrL (parsePathL d))

/-! ### base64 (embedding of `base64.b64encode(...).decode("utf-8")`) -/

def base64Chars : List Char :=
  ['A', 'B', 'C', 'D', 'E', 'F', 'G', 'H', 'I', 'J', 'K', 'L', 'M',
   'N', 'O', 'P', 'Q', 'R', 'S', 'T', 'U', 'V', 'W', 'X', 'Y', 'Z',
   'a', 'b', 'c', 'd', 'e', 'f', 'g', 'h', 'i', 'j', 'k', 'l', 'm',
   'n', 'o', 'p', 'q', 'r', 's', 't', 'u', 'v', 'w', 'x', 'y', 'z',
   '0', '1', '2', '3', '4', '5', '6', '7', '8', '9', '+', '/']

def b64Char (n : Nat) : Char := base64Chars.getD n 'A'

/-- RFC 4648 base64 of a byte list, with `=` padding (as `base64.b64encode`). -/
def b64encodeList : List Nat → List Char
  | [] => []
  | [a] => [b64Char (a / 4), b64Char (a % 4 * 16), '=', '=']
  | [a, b] => [b64Char (a / 4), b64Char (a % 4 * 16 + b / 16), b64Char (b % 16 * 4), '=']
  | a :: b :: c :: rest =>
    b64Char (a / 4) :: b64Char (a % 4 * 16 + b / 16) ::
    b64Char (b % 16 * 4 + c / 64) :: b64Char (c % 64) :: b64encodeList rest

def b64encode (bs : List Nat) : String := ⟨b64encodeList bs⟩

/-! ### Notification data model (wire schema of section 6 of the spec;
the worker accesses exactly these fields of the parsed JSON payload) -/

structure Integrity where
  method : String
  value : String
  deriving DecidableEq, Repr

structure JobProperties where
  data_id : String
  integrity : Option Integrity
  deriving DecidableEq, Repr

structure Link where
  rel : String
  href : String
  deriving DecidableEq, Repr

structure Payload where
  properties : JobProperties
  links : List Link
  deriving DecidableEq, Repr

/-- A queue entry, as built by `on_message` (lines 375-378). -/
structure Job where
  topic : String
  payload : Payload
  deriving DecidableEq, Repr

/-! ### hashlib and the integrity metadata (`get_expected_hash`, lines 92-111) -/

/-- A hashlib digest function: bytes in, digest bytes out. -/
def HashFn := List Nat → List Nat

/-- Embeds `get_expected_hash` (lines 92-111).  `hashlib` is the
`getattr(hashlib, method, None)` lookup, a parameter of the model.
When the payload has no `integrity` block the Python function executes a bare
`return`, i.e. it returns `None`: that is the `none` result here.  Otherwise it
returns the pair `(expected, hash_function)` where `hash_function` may itself
be `None` when the method name does not resolve. -/
def get_expected_hash (hashlib : String → Option HashFn) (job : Job) :
    Option (String × Option HashFn) :=
  match job.payload.properties.integrity with
  | none => none
  | some i => some (i.value, hashlib i.method)

/-! ### Worker pipeline (`download_worker`, `compare_hashes`,
`download_and_save_file`, lines 126-240) -/

/-- Observable effects of the worker pipeline, in program order.  Log events
carry the text the source formats (the source interpolates a basename derived
from the URL into the info messages; the URL stands in for it here). -/
inductive Event where
  /-- line 212: `LOGGER.info(f"Attempting to download {filename}")` -/
  | logAttempt (url : String)
  /-- line 216: `LOGGER.info(f"File {filename} already downloaded. Skipping.")` -/
  | logSkipped (url : String)
  /-- line 223: the call `http.request("GET", url)` (a network fetch attempt) -/
  | httpGet (url : String)
  /-- `LOGGER.debug(...)` with the given message -/
  | logDebug (msg : String)
  /-- `LOGGER.error(...)` with the given message -/
  | logError (msg : String)
  /-- `LOGGER.error(e)`: the raised exception object itself is logged -/
  | logErrorCause (cause : String)
  /-- line 234: `output_path.write_bytes(response.data)` succeeded -/
  | wroteFile (path : PyPath) (data : List Nat)
  /-- line 237: the success info log after saving -/
  | logDownloaded (url : String)
  /-- line 164: `output_path.parent.mkdir(exist_ok=True, parents=True)` -/
  | mkdirParents (path : PyPath)
  deriving DecidableEq, Repr

/-- External collaborators of one worker: the HTTP pool (`fetch url` is
`http.request("GET", url)`, `Except.error` modelling a raised exception), the
filesystem existence check (`output_path.is_file()`), and the disk write
(`writeErr p data = some msg` models `write_bytes` raising). -/
structure Env where
  fetch : String → Except String (List Nat)
  fileExists : PyPath → Bool
  writeErr : PyPath → List Nat → Option String

/-- Embeds `compare_hashes` (lines 175-196).  Returns the log events the
function emits; it never raises and returns no value. -/
def compare_hashes (data : List Nat) (expected : Option String)
    (hash_function : Option HashFn) : List Event :=
  match expected, hash_function with
  | some e, some hf =>
    if b64encode (hf data) = e then
      [Event.logDebug "Hashes match"]
    else
      [Event.logError "Hashes do not match"]
  | _, _ =>
    -- line 184: `if None in (hash_function, expected)`
    [Event.logDebug "No hash function or expected hash found to compare"]

/-- Embeds `download_and_save_file` (lines 199-240).  Both `try` blocks catch
every exception and only log, so the function is total and returns its event
trace.  When the fetch raises, the local `response` is never bound, so the
save block raises `NameError`, which its own `except` also catches: no file is
written and nothing propagates. -/
def download_and_save_file (env : Env) (url : String) (output_path : PyPath)
    (hash_expected_value : Option String) (hash_function : Option HashFn) :
    List Event :=
  Event.logAttempt url ::
  if env.fileExists output_path then
    [Event.logSkipped url]
  else
    match env.fetch url with
    | Except.ok data =>
      Event.httpGet url ::
      (compare_hashes data hash_expected_value hash_function ++
        match env.writeErr output_path data with
        | none => [Event.wroteFile output_path data, Event.logDownloaded url]
        | some msg =>
          [Event.logError "Error saving to disk", Event.logErrorCause msg])
    | Except.error cause =>
      [Event.httpGet url,
       Event.logError ("Error downloading " ++ url), Event.logErrorCause cause,
       Event.logError "Error saving to disk",
       Event.logErrorCause "NameError: name response is not defined"]

/-- Lines 168-170: `for link in job["payload"]["links"]: if link["rel"] ==
"canonical": download_and_save_file(...)`. -/
def download_links (env : Env) (links : List Link) (output_path : PyPath)
    (hash_expected_value : Option String) (hash_function : Option HashFn) :
    List Event :=
  (links.filter (fun l => l.rel == "canonical")).flatMap
    (fun l => download_and_save_file env l.href output_path
        hash_expected_value hash_function)

/-- `dict.get(key, default)` on the subscription dictionary. -/
def dictGet (subs : List (String × String)) (key dflt : String) : String :=
  match subs.find? (fun p => p.1 == key) with
  | some p => p.2
  | none => dflt

/-- Lines 148-161: the output path computed by `download_worker` for one job:
`Path(subs.get(topic, download_dir), get_todays_date(), Path(str(Path(data_id)).replace(":", "")))`. -/
def resolve_output_path (subs : List (String × String)) (download_dir : String)
    (topic : String) (data_id : String) (y m d : Nat) : PyPath :=
  joinPath
    (joinPath (parsePathL (dictGet subs topic download_dir).toList)
      (parsePathL (get_todays_date y m d)))
    (parsePathL (normalizeDataId data_id.toList))

/-- One iteration of the `while True` loop of `download_worker` (lines
141-172) on a dequeued job.  Line 146 unpacks the result of
`get_expected_hash` into two variables; when that result is `None` (no
integrity block) the unpacking raises `TypeError`, modelled by
`Except.error`: the loop has no exception handler, so the worker thread dies
there. -/
def download_worker_step (hashlib : String → Option HashFn) (env : Env)
    (subs : List (String × String)) (download_dir : String) (y m d : Nat)
    (job : Job) : Except String (List Event) :=
  match get_expected_hash hashlib job with
  | none => Except.error "TypeError: cannot unpack non-iterable NoneType object"
  | some (hash_expected_value, hash_function) =>
    Except.ok
      (Event.mkdirParents
        (parentPath (resolve_output_path subs download_dir job.topic
          job.payload.properties.data_id y m d)) ::
       download_links env job.payload.links
         (resolve_output_path subs download_dir job.topic
           job.payload.properties.data_id y m d)
         (some hash_expected_value) hash_function)

/-- Embeds `download_worker` (lines 126-172) draining a queue snapshot: the
events emitted job after job, and `some err` when an uncaught exception ends
the thread (processing stops there, later jobs are never dequeued by this
worker). -/
def download_worker (hashlib : String → Option HashFn) (env : Env)
    (subs : List (String × String)) (download_dir : String) (y m d : Nat) :
    List Job → List Event × Option String
  | [] => ([], none)
  | job :: rest =>
    match download_worker_step hashlib env subs download_dir y m d job with
    | Except.error e => ([], some e)
    | Except.ok evs =>
      let r := download_worker hashlib env subs download_dir y m d rest
      (evs ++ r.1, r.2)

/-! ### Control plane (`handle_add_subscription`, `handle_delete_subscription`,
lines 243-295) and the startup table (`main`, lines 501-506) -/

/-- The shared control-plane state: the subscription dictionary (insertion
ordered, as a Python dict), the transport calls issued so far, and the info
log lines. -/
structure ControlState where
  subs : List (String × String)
  subscribeCalls : List String
  unsubscribeCalls : List String
  logs : List String
  deriving DecidableEq, Repr

/-- What a handler returns to Flask: the error string of line 260/285, or the
subscription dictionary. -/
inductive RouteResult where
  | noTopicPassed
  | table (subs : List (String × String))
  deriving DecidableEq, Repr

def dictContains (subs : List (String × String)) (key : String) : Bool :=
  (subs.find? (fun p => p.1 == key)).isSome

/-- `del subs[topic]` (keys are unique, so this removes the one entry). -/
def dictDelete (subs : List (String × String)) (key : String) :
    List (String × String) :=
  subs.filter (fun p => !(p.1 == key))

/-- Number of entries of the dictionary holding the given key (0 or 1 while
keys are unique). -/
def countKey (subs : List (String × String)) (key : String) : Nat :=
  (subs.filter (fun p => p.1 == key)).length

/-- Embeds `handle_add_subscription` (lines 243-267).  `topic` is
`request.args.get("topic", None)`. -/
def handle_add_subscription (download_dir : String) (topic : Option String)
    (st : ControlState) : ControlState × RouteResult :=
  match topic with
  | none => (st, RouteResult.noTopicPassed)
  | some t =>
    if dictContains st.subs t then
      -- line 263: only logs "Topic {t} already subscribed"
      ({ st with logs := st.logs ++ ["Topic " ++ t ++ " already subscribed"] },
       RouteResult.table st.subs)
    else
      -- lines 265-266: client.subscribe(topic); subs[topic] = download_dir
      ({ st with
          subs := st.subs ++ [(t, download_dir)],
          subscribeCalls := st.subscribeCalls ++ [t] },
       RouteResult.table (st.subs ++ [(t, download_dir)]))

/-- Embeds `handle_delete_subscription` (lines 270-295).  The unsubscribe call
(line 287) precedes the membership test, so it is issued unconditionally.  In
the not-found branch the source also loops over the table logging each key
(lines 293-294, with a broken two-argument `LOGGER.info` call); that loop is
modelled by appending the keys to the log. -/
def handle_delete_subscription (topic : Option String) (st : ControlState) :
    ControlState × RouteResult :=
  match topic with
  | none => (st, RouteResult.noTopicPassed)
  | some t =>
    let st1 : ControlState :=
      { st with
          unsubscribeCalls := st.unsubscribeCalls ++ [t],
          logs := st.logs ++ [t ++ "/#"] }
    if dictContains st1.subs t then
      ({ st1 with subs := dictDelete st1.subs t },
       RouteResult.table (dictDelete st1.subs t))
    else
      ({ st1 with
          logs := st1.logs ++ ["Topic " ++ t ++ " not found"]
            ++ st1.subs.map (fun p => p.1) },
       RouteResult.table st1.subs)

/-- One control-plane request, as routed by the Flask app (lines 81-87). -/
inductive ControlOp where
  | add (topic : Option String)
  | del (topic : Option String)
  deriving DecidableEq, Repr

def apply_op (download_dir : String) (st : ControlState) :
    ControlOp → ControlState
  | ControlOp.add t => (handle_add_subscription download_dir t st).1
  | ControlOp.del t => (handle_delete_subscription t st).1

def apply_ops (download_dir : String) (st : ControlState)
    (ops : List ControlOp) : ControlState :=
  ops.foldl (apply_op download_dir) st

/-- Lines 501-506: `subs = {t: download_dir for t in topics}` — every
configured topic is seeded with the single startup download directory
(duplicate topics collapse onto the existing key, with the same value). -/
def init_subs (topics : List String) (download_dir : String) : ControlState :=
  { subs :=
      topics.foldl
        (fun m t => if dictContains m t then m else m ++ [(t, download_dir)])
        [],
    subscribeCalls := [],
    unsubscribeCalls := [],
    logs := [] }

/-! ### Worker pool size (`create_app`, lines 67-75) -/

/-- Line 69: `num_worker_threads = num_cores - 2`, with no clamping. -/
def num_worker_threads (num_cores : Nat) : Int := (num_cores : Int) - 2

/-- Lines 72-75: `for _ in range(num_worker_threads)` — `range` of a
non-positive number is empty, so this many threads are actually started. -/
def workersStarted (num_cores : Nat) : Nat := ((num_cores : Int) - 2).toNat

/-- Modelled from the spec: the pool size the specification requires
(`max(available parallelism - 2, 1)`, clamped to at least 1); the clamp is
absent from `create_app`, this definition exists only for comparison. -/
def spec_pool_size (num_cores : Nat) : Int := max ((num_cores : Int) - 2) 1

/-! ### Ingestion (`on_message`, lines 355-379) -/

/-- A parsed JSON document (the result type of `json.loads`). -/
inductive Json where
  | null
  | bool (b : Bool)
  | num (n : Int)
  | str (s : String)
  | arr (elems : List Json)
  | obj (fields : List (String × Json))

/-- A raw MQTT message as delivered to the callback. -/
structure Msg where
  topic : String
  payload : String
  deriving DecidableEq, Repr

/-- The job dictionary built on lines 375-378 (the payload is the raw parsed
JSON; field access happens later in the worker). -/
structure RawJob where
  topic : String
  payload : Json

/-- Embeds `on_message` (lines 355-379).  `loads` is `json.loads`, a
parameter of the model (`none` models a raised `JSONDecodeError`).  The body
has no exception handler: a parse failure propagates out of the callback
(`Except.error`), and the job is not enqueued. -/
def on_message (loads : String → Option Json) (q : List RawJob) (msg : Msg) :
    Except String (List RawJob) :=
  match loads msg.payload with
  | none => Except.error "json.decoder.JSONDecodeError"
  | some p => Except.ok (q ++ [{ topic := msg.topic, payload := p }])

/-! ### Concrete fixtures used to evaluate the model at specific inputs -/

/-- A stand-in for the `hashlib` module: one supported method name, whose
digest function is the identity on the byte list. -/
def hashlibFix : String → Option HashFn :=
  fun m => if m = "sha256" then some (fun data => data) else none

/-- An environment in which every fetch raises and no output file exists. -/
def envFetchFail : Env :=
  ⟨fun _ => Except.error "connection refused", fun _ => false, fun _ _ => none⟩

/-- An environment in which every fetch returns `data`, no output file
exists, and disk writes succeed. -/
def envOk (data : List Nat) : Env :=
  ⟨fun _ => Except.ok data, fun _ => false, fun _ _ => none⟩

/-- An environment in which every output path already exists on disk. -/
def envExists : Env :=
  ⟨fun _ => Except.error "unreachable", fun _ => true, fun _ _ => none⟩

/-- A job whose notification payload has no integrity block. -/
def jobNoIntegrity : Job :=
  ⟨"t", ⟨⟨"urn:x:1", none⟩, [⟨"canonical", "http://h/f.bin"⟩]⟩⟩

/-- A job with an integrity block naming the supported method. -/
def jobWithIntegrity : Job :=
  ⟨"a", ⟨⟨"urn:x:1", some ⟨"sha256", "AQID"⟩⟩, [⟨"canonical", "http://h/f.bin"⟩]⟩⟩

/-! ### Lemmas about the path model -/

theorem splitOnSlash_ne_nil (cs : List Char) : splitOnSlash cs ≠ [] := by
  match cs with
  | [] => simp [splitOnSlash]
  | c :: rest =>
    simp only [splitOnSlash]
    by_cases hc : c = '/'
    · simp [hc]
    · simp only [if_neg hc]
      cases h : splitOnSlash rest <;> simp

theorem splitOnSlash_cons_ne (c : Char) (rest : List Char) (hc : ¬c = '/')
    (s : List Char) (ss : List (List Char)) (h : splitOnSlash rest = s :: ss) :
    splitOnSlash (c :: rest) = (c :: s) :: ss := by
  simp only [splitOnSlash, if_neg hc, h]

theorem splitOnSlash_append (xs ys : List Char) :
    splitOnSlash (xs ++ '/' :: ys) = splitOnSlash xs ++ splitOnSlash ys := by
  induction xs with
  | nil => simp [splitOnSlash]
  | cons c rest ih =>
    by_cases hc : c = '/'
    · subst hc
      simp [splitOnSlash, ih]
    · obtain ⟨s, ss, hrest⟩ := List.exists_cons_of_ne_nil (splitOnSlash_ne_nil rest)
      have h1 : splitOnSlash (rest ++ '/' :: ys) = s :: (ss ++ splitOnSlash ys) := by
        rw [ih, hrest]; simp
      rw [List.cons_append, splitOnSlash_cons_ne c _ hc _ _ h1,
        splitOnSlash_cons_ne c _ hc _ _ hrest]
      simp

theorem splitOnSlash_of_no_slash (xs : List Char) (h : '/' ∉ xs) :
    splitOnSlash xs = [xs] := by
  induction xs with
  | nil => rfl
  | cons c rest ih =>
    have hc : ¬c = '/' := fun hc => h (hc ▸ List.mem_cons_self c rest)
    have hrest : '/' ∉ rest := fun hm => h (List.mem_cons_of_mem c hm)
    exact splitOnSlash_cons_ne c rest hc rest [] (ih hrest)

theorem no_slash_of_mem_splitOnSlash (xs seg : List Char)
    (h : seg ∈ splitOnSlash xs) : '/' ∉ seg := by
  induction xs generalizing seg with
  | nil =>
    simp [splitOnSlash] at h
    subst h; simp
  | cons c rest ih =>
    by_cases hc : c = '/'
    · subst hc
      have hsplit : splitOnSlash ('/' :: rest) = [] :: splitOnSlash rest := by
        simp [splitOnSlash]
      rw [hsplit] at h
      rcases List.mem_cons.mp h with h1 | h1
      · subst h1; simp
      · exact ih seg h1
    · obtain ⟨s, ss, hrest⟩ := List.exists_cons_of_ne_nil (splitOnSlash_ne_nil rest)
      rw [splitOnSlash_cons_ne c rest hc s ss hrest] at h
      rcases List.mem_cons.mp h with h | h
      · subst h
        intro hmem
        rcases List.mem_cons.mp hmem with h1 | h1
        · exact hc h1.symm
        · exact ih s (hrest ▸ List.mem_cons_self s ss) h1
      · exact ih seg (hrest ▸ List.mem_cons_of_mem s h)

theorem removeColons_cons (c : Char) (u : List Char) :
    removeColons (c :: u) =
      if c = ':' then removeColons u else c :: removeColons u := by
  simp only [removeColons, List.filter_cons]
  by_cases hc : c = ':' <;> simp [hc]

theorem splitOnSlash_removeColons (u : List Char) :
    splitOnSlash (removeColons u) = (splitOnSlash u).map removeColons := by
  induction u with
  | nil => rfl
  | cons c rest ih =>
    obtain ⟨s, ss, hrest⟩ := List.exists_cons_of_ne_nil (splitOnSlash_ne_nil rest)
    by_cases hc : c = ':'
    · subst hc
      rw [removeColons_cons, if_pos rfl, ih,
        splitOnSlash_cons_ne ':' rest (by decide) s ss hrest, hrest]
      simp [removeColons_cons]
    · by_cases hsl : c = '/'
      · subst hsl
        rw [removeColons_cons, if_neg hc]
        simp only [splitOnSlash, if_pos rfl, ih]
        simp [removeColons]
      · obtain ⟨t, ts, hrc⟩ :=
          List.exists_cons_of_ne_nil (splitOnSlash_ne_nil (removeColons rest))
        have hmap : splitOnSlash (removeColons rest)
            = removeColons s :: ss.map removeColons := by
          rw [ih, hrest]; rfl
        rw [hrc] at hmap
        injection hmap with h1 h2
        rw [removeColons_cons, if_neg hc,
          splitOnSlash_cons_ne c _ hsl t ts hrc,
          splitOnSlash_cons_ne c rest hsl s ss hrest, h1, h2]
        simp [removeColons_cons, hc]

theorem keepSeg_false_iff (s : List Char) :
    keepSeg s = false ↔ s = [] ∨ s = ['.'] := by
  simp only [keepSeg]
  by_cases h1 : s = []
  · simp [h1]
  · by_cases h2 : s = ['.'] <;> simp [h1, h2]

theorem removeColons_of_not_keep (s : List Char) (h : keepSeg s = false) :
    removeColons s = s := by
  rcases (keepSeg_false_iff s).mp h with h | h <;> subst h <;> rfl

theorem filter_keep_map_removeColons (xs : List (List Char)) :
    ((xs.filter keepSeg).map removeColons).filter keepSeg
      = (xs.map removeColons).filter keepSeg := by
  induction xs with
  | nil => rfl
  | cons x xs ih =>
    by_cases hx : keepSeg x
    · simp [List.filter_cons, hx, ih]
    · have hx' : keepSeg x = false := by simpa using hx
      have hrc : removeColons x = x := removeColons_of_not_keep x hx'
      simp [List.filter_cons, hx', hrc, ih]

theorem splitOnSlash_intercalateSegs (L : List (List Char))
    (hs : ∀ s ∈ L, '/' ∉ s) (hne : L ≠ []) :
    splitOnSlash (intercalateSegs L) = L := by
  induction L with
  | nil => exact absurd rfl hne
  | cons l ls ih =>
    cases ls with
    | nil =>
      simp only [intercalateSegs]
      exact splitOnSlash_of_no_slash l (hs l (List.mem_cons_self l []))
    | cons l2 ls2 =>
      have : intercalateSegs (l :: l2 :: ls2) = l ++ '/' :: intercalateSegs (l2 :: ls2) := rfl
      rw [this, splitOnSlash_append,
        splitOnSlash_of_no_slash l (hs l (List.mem_cons_self l _)),
        ih (fun s h => hs s (List.mem_cons_of_mem l h)) (by simp)]
      rfl

theorem removeColons_nil : removeColons [] = [] := rfl

theorem keepSeg_nil : keepSeg [] = false := rfl

theorem splitOnSlash_pathStrL_cons (abs : Bool) (l : List Char)
    (ls : List (List Char)) (hs : ∀ s ∈ l :: ls, '/' ∉ s) :
    splitOnSlash (pathStrL ⟨abs, l :: ls⟩)
      = (if abs then [[]] else []) ++ (l :: ls) := by
  have hic := splitOnSlash_intercalateSegs (l :: ls) hs (by simp)
  cases abs
  · simpa [pathStrL] using hic
  · have hps : pathStrL ⟨true, l :: ls⟩ = '/' :: intercalateSegs (l :: ls) := by
      simp [pathStrL]
    rw [hps]
    simp [splitOnSlash, hic]

theorem parseSegs_append (xs ys : List Char) :
    parseSegs (xs ++ '/' :: ys) = parseSegs xs ++ parseSegs ys := by
  simp [parseSegs, splitOnSlash_append, List.filter_append]

/-- Core of the round trip: stripping colons after `pathlib` normalization
yields the same kept segments as stripping colons from the raw string. -/
theorem parseSegs_normalizeDataId (d : List Char) :
    parseSegs (normalizeDataId d) = parseSegs (removeColons d) := by
  have hclean : ∀ s ∈ parseSegs d, '/' ∉ s := by
    intro s hmem
    exact no_slash_of_mem_splitOnSlash d s (List.mem_of_mem_filter hmem)
  have step1 : parseSegs (normalizeDataId d)
      = ((splitOnSlash (pathStrL (parsePathL d))).map removeColons).filter keepSeg := by
    simp [normalizeDataId, parseSegs, splitOnSlash_removeColons]
  have step2 : ((splitOnSlash (pathStrL (parsePathL d))).map removeColons).filter keepSeg
      = ((parseSegs d).map removeColons).filter keepSeg := by
    show ((splitOnSlash (pathStrL ⟨isAbs d, parseSegs d⟩)).map removeColons).filter keepSeg = _
    cases hL : parseSegs d with
    | nil =>
      cases habs : isAbs d <;> simp [pathStrL, habs, hL] <;> decide
    | cons l ls =>
      rw [splitOnSlash_pathStrL_cons (isAbs d) l ls
        (fun s hmem => hclean s (hL ▸ hmem))]
      cases isAbs d
      · rw [if_neg (by simp), List.nil_append]
      · rw [if_pos rfl]
        simp [List.filter_cons, removeColons_nil, keepSeg_nil]
  have step3 : ((parseSegs d).map removeColons).filter keepSeg
      = ((splitOnSlash d).map removeColons).filter keepSeg :=
    filter_keep_map_removeColons (splitOnSlash d)
  have step4 : ((splitOnSlash d).map removeColons).filter keepSeg
      = parseSegs (removeColons d) := by
    simp [parseSegs, splitOnSlash_removeColons]
  rw [step1, step2, step3, step4]

/-! ### Lemmas about digits and the date component -/

theorem digitChar_mem (k : Nat) : digitChar k ∈ digitChars := by
  by_cases h : k < 10
  · interval_cases k <;> decide
  · have hlen : digitChars.length ≤ k := by
      simp only [digitChars]
      simp only [List.length]
      omega
    rw [digitChar, List.getD_eq_default digitChars '0' hlen]
    decide

theorem natCharsAux_subset (f : Nat) :
    ∀ n c, c ∈ natCharsAux f n → c ∈ digitChars := by
  induction f with
  | zero => intro n c hc; simp [natCharsAux] at hc
  | succ f ih =>
    intro n c hc
    cases n with
    | zero => simp [natCharsAux] at hc
    | succ k =>
      simp only [natCharsAux] at hc
      rcases List.mem_append.mp hc with h | h
      · exact ih _ c h
      · rcases List.mem_singleton.mp h with rfl
        exact digitChar_mem _

theorem natChars_subset (n : Nat) : ∀ c ∈ natChars n, c ∈ digitChars := by
  intro c hc
  by_cases h : n = 0
  · subst h; simp [natChars] at hc; subst hc; decide
  · rw [natChars, if_neg h] at hc
    exact natCharsAux_subset n n c hc

theorem natChars_ne_nil (n : Nat) : natChars n ≠ [] := by
  by_cases h : n = 0
  · subst h; simp [natChars]
  · rw [natChars, if_neg h]
    obtain ⟨k, rfl⟩ := Nat.exists_eq_succ_of_ne_zero h
    simp [natCharsAux]

theorem padNum_subset (w n : Nat) : ∀ c ∈ padNum w n, c ∈ digitChars := by
  intro c hc
  rcases List.mem_append.mp hc with h | h
  · rcases List.eq_of_mem_replicate h with rfl
    decide
  · exact natChars_subset n c h

theorem padNum_ne_nil (w n : Nat) : padNum w n ≠ [] := by
  simp [padNum, natChars_ne_nil n]

theorem isAbs_append_of_ne_nil (xs ys : List Char) (h : xs ≠ []) :
    isAbs (xs ++ ys) = isAbs xs := by
  cases xs with
  | nil => exact absurd rfl h
  | cons c cs => rfl

theorem isAbs_of_digit_head (xs ys : List Char) (hne : xs ≠ [])
    (hd : ∀ c ∈ xs, c ∈ digitChars) : isAbs (xs ++ ys) = false := by
  cases xs with
  | nil => exact absurd rfl hne
  | cons c cs =>
    have hc : c ∈ digitChars := hd c (List.mem_cons_self c cs)
    have : ¬c = '/' := by
      intro hcc
      subst hcc
      revert hc
      decide
    simp [isAbs, this]

theorem isAbs_get_todays_date (y m d : Nat) :
    isAbs (get_todays_date y m d) = false :=
  isAbs_of_digit_head (padNum 4 y) _ (padNum_ne_nil 4 y) (padNum_subset 4 y)

/-! ### Join lemma -/

theorem joinPath_rel (a b : PyPath) (h : b.absolute = false) :
    joinPath a b = ⟨a.absolute, a.segs ++ b.segs⟩ := by
  unfold joinPath
  rw [h]
  simp

/-! ### Claims -/

/-- Claim C4 (counterexample): the claim states that for every dequeued job
the resolved output path equals
`{directory}/{yyyy}/{mm}/{dd}/{dataId with colons removed}`.  It fails when
the colon-stripped dataId is an absolute path — `pathlib` join semantics make
it replace the whole directory-and-date prefix (a job with `data_id = "/a"`
under directory `/data` resolves to `/a`, not `/data/2024/03/05//a`) — and
when the directory string is empty (the template string becomes absolute
while the code resolves a relative path). -/
theorem resolve_output_path_template_fails :
    resolve_output_path [("a", "/data")] "/dflt" "a" "/a" 2024 3 5
        = parsePathL "/a".toList
    ∧ resolve_output_path [("a", "/data")] "/dflt" "a" "/a" 2024 3 5
        ≠ parsePathL ("/data/2024/03/05//a".toList)
    ∧ resolve_output_path [("a", "")] "/dflt" "a" "x" 2024 3 5
        ≠ parsePathL ("/2024/03/05/x".toList) := by
  refine ⟨by decide, by decide, by decide⟩

/-- Claim C4 (amended): for every dequeued job, provided the colon-stripped
normalized dataId is a relative path and the directory from the subscription
table lookup (which never fails; absent topics fall back to the passed-in
default) is nonempty, the resolved output path equals, as a filesystem path,
`{directory}/{yyyy}/{mm}/{dd}/{dataId with all colons removed}` with the
zero-padded processing date; an absolute dataId instead replaces the whole
prefix under path-join semantics. -/
theorem resolve_output_path_eq_template (subs : List (String × String))
    (download_dir topic data_id : String) (y m d : Nat)
    (hrel : (parsePathL (normalizeDataId data_id.toList)).absolute = false)
    (hdir : (dictGet subs topic download_dir).toList ≠ []) :
    resolve_output_path subs download_dir topic data_id y m d
      = parsePathL ((dictGet subs topic download_dir).toList
          ++ '/' :: (get_todays_date y m d ++ '/' :: removeColons data_id.toList)) := by
  have habs2 : (parsePathL (get_todays_date y m d)).absolute = false := by
    simp [parsePathL, isAbs_get_todays_date]
  unfold resolve_output_path
  rw [joinPath_rel _ _ hrel, joinPath_rel _ _ habs2]
  have habsR : isAbs ((dictGet subs topic download_dir).toList
      ++ '/' :: (get_todays_date y m d ++ '/' :: removeColons data_id.toList))
      = isAbs (dictGet subs topic download_dir).toList :=
    isAbs_append_of_ne_nil _ _ hdir
  have hsegR : parseSegs ((dictGet subs topic download_dir).toList
      ++ '/' :: (get_todays_date y m d ++ '/' :: removeColons data_id.toList))
      = parseSegs (dictGet subs topic download_dir).toList
        ++ (parseSegs (get_todays_date y m d)
            ++ parseSegs (removeColons data_id.toList)) := by
    rw [parseSegs_append, parseSegs_append]
  simp only [parsePathL, PyPath.mk.injEq]
  refine ⟨habsR.symm, ?_⟩
  rw [hsegR, parseSegs_normalizeDataId, List.append_assoc]

/-- Witness for the amended C4 theorem at the concrete scenario of section 8
of the spec (`urn:x:1` under `/data` on 2024-03-05). -/
theorem resolve_output_path_eq_template_witness :
    resolve_output_path [("a", "/data")] "/dflt" "a" "urn:x:1" 2024 3 5
      = parsePathL ((dictGet [("a", "/data")] "a" "/dflt").toList
          ++ '/' :: (get_todays_date 2024 3 5 ++ '/' :: removeColons "urn:x:1".toList)) :=
  resolve_output_path_eq_template [("a", "/data")] "/dflt" "a" "urn:x:1" 2024 3 5
    (by decide) (by decide)

/-- Claim C1 (code evaluated at the failing input): the claim says a job with
no integrity block skips verification as a non-error and still downloads every
canonical link.  In the code, `get_expected_hash` returns `None` for such a
job and line 146 unpacks that `None` into two variables, raising `TypeError`:
the worker thread dies before any download, and subsequent jobs in the queue
are never processed by it (the second component shows a following job with a
valid integrity block producing no events at all).  A job whose integrity
block names an unsupported method does proceed, as the claim says; the
no-integrity case contradicts both the claim and the docstring of
`get_expected_hash`, which promises a tuple. -/
theorem no_integrity_block_kills_worker :
    download_worker_step hashlibFix (envOk [1, 2, 3]) [] "/data" 2024 3 5
        jobNoIntegrity
      = Except.error "TypeError: cannot unpack non-iterable NoneType object"
    ∧ download_worker hashlibFix (envOk [1, 2, 3]) [] "/data" 2024 3 5
        [jobNoIntegrity, jobWithIntegrity]
      = ([], some "TypeError: cannot unpack non-iterable NoneType object") := by
  exact ⟨rfl, rfl⟩

/-- Claim C2 (code evaluated at the failing inputs): the claim says the
number of worker threads is `max(cores - 2, 1)` and in particular never zero.
`create_app` computes `num_cores - 2` with no clamp, and `range` of a
non-positive number is empty: with 1 or 2 reported cores zero workers are
started, while the spec requires 1.  For 3 or more cores the code agrees
with the spec formula. -/
theorem worker_pool_size_not_clamped :
    workersStarted 1 = 0 ∧ workersStarted 2 = 0
    ∧ spec_pool_size 1 = 1 ∧ spec_pool_size 2 = 1
    ∧ num_worker_threads 1 = -1
    ∧ workersStarted 3 = 1 ∧ workersStarted 4 = 2 := by
  decide

/-- Claim C3 (code evaluated at the failing input): the claim says a payload
that fails to parse is logged and dropped inside `on_message` without raising.
The body of `on_message` has no exception handler around `json.loads`, so the
`JSONDecodeError` propagates out of the callback (and nothing is enqueued):
for every parse function and every message whose payload it rejects, the
callback ends in the raised exception. -/
theorem on_message_parse_failure_raises (loads : String → Option Json)
    (q : List RawJob) (msg : Msg) (h : loads msg.payload = none) :
    on_message loads q msg = Except.error "json.decoder.JSONDecodeError" := by
  simp [on_message, h]

/-- Witness: a concrete parser that accepts only the empty JSON object,
applied to a message whose payload is not JSON. -/
theorem on_message_parse_failure_raises_witness :
    on_message (fun s => if s = "{}" then some (Json.obj []) else none) []
        ⟨"t", "not json"⟩
      = Except.error "json.decoder.JSONDecodeError" :=
  on_message_parse_failure_raises _ [] ⟨"t", "not json"⟩ rfl

/-- Claim C5: when the resolved output path already exists as a file, the
link is skipped before the download timer starts: the trace is just the two
info logs, with no network fetch, no write, and no verification. -/
theorem existing_file_skips_link (env : Env) (url : String) (p : PyPath)
    (e : Option String) (hf : Option HashFn) (h : env.fileExists p = true) :
    download_and_save_file env url p e hf
        = [Event.logAttempt url, Event.logSkipped url]
    ∧ (∀ u, Event.httpGet u ∉ download_and_save_file env url p e hf)
    ∧ (∀ q data, Event.wroteFile q data ∉ download_and_save_file env url p e hf)
    ∧ (∀ m, Event.logDebug m ∉ download_and_save_file env url p e hf) := by
  have hdl : download_and_save_file env url p e hf
      = [Event.logAttempt url, Event.logSkipped url] := by
    simp [download_and_save_file, h]
  refine ⟨hdl, ?_, ?_, ?_⟩ <;> intros <;> rw [hdl] <;> simp

/-- Witness for C5 in an environment where every path exists on disk. -/
theorem existing_file_skips_link_witness :
    download_and_save_file envExists "http://h/f.bin"
        (parsePathL "/data/2024/03/05/urnx1".toList) none none
      = [Event.logAttempt "http://h/f.bin", Event.logSkipped "http://h/f.bin"]
    ∧ Event.httpGet "http://h/f.bin" ∉ download_and_save_file envExists
        "http://h/f.bin" (parsePathL "/data/2024/03/05/urnx1".toList) none none
    ∧ Event.wroteFile (parsePathL "/data/2024/03/05/urnx1".toList) [1, 2, 3]
        ∉ download_and_save_file envExists "http://h/f.bin"
            (parsePathL "/data/2024/03/05/urnx1".toList) none none
    ∧ Event.logDebug "Hashes match" ∉ download_and_save_file envExists
        "http://h/f.bin" (parsePathL "/data/2024/03/05/urnx1".toList) none none := by
  have h := existing_file_skips_link envExists "http://h/f.bin"
    (parsePathL "/data/2024/03/05/urnx1".toList) none none rfl
  exact ⟨h.1, h.2.1 "http://h/f.bin",
    h.2.2.1 (parsePathL "/data/2024/03/05/urnx1".toList) [1, 2, 3],
    h.2.2.2 "Hashes match"⟩

/-- Claim C6: with an expected value and a resolved hash function,
`compare_hashes` reports a match exactly when the base64 encoding of the
recomputed digest equals the expected value (string equality: byte-for-byte
and case-sensitive), reports a mismatch exactly otherwise, and a mismatch
never prevents persistence: whenever the disk write succeeds the file is
written, whatever the comparison outcome was. -/
theorem verify_match_iff_digest_eq (env : Env) (url : String) (p : PyPath)
    (data : List Nat) (expected : String) (hf : HashFn)
    (hex : env.fileExists p = false) (hok : env.fetch url = Except.ok data) :
    (Event.logDebug "Hashes match" ∈ compare_hashes data (some expected) (some hf)
        ↔ b64encode (hf data) = expected)
    ∧ (Event.logError "Hashes do not match"
          ∈ compare_hashes data (some expected) (some hf)
        ↔ b64encode (hf data) ≠ expected)
    ∧ (env.writeErr p data = none →
        Event.wroteFile p data
          ∈ download_and_save_file env url p (some expected) (some hf)) := by
  by_cases hm : b64encode (hf data) = expected
  · refine ⟨?_, ?_, ?_⟩
    · simp [compare_hashes, hm]
    · simp [compare_hashes, hm]
    · intro hw
      simp [download_and_save_file, hex, hok, hw, compare_hashes, hm]
  · refine ⟨?_, ?_, ?_⟩
    · simp [compare_hashes, hm]
    · simp [compare_hashes, hm]
    · intro hw
      simp [download_and_save_file, hex, hok, hw, compare_hashes, hm]

/-- Witness for C6: the identity digest of `[1, 2, 3]` base64 encodes to
`"AQID"`, and the file is persisted. -/
theorem verify_match_iff_digest_eq_witness :
    (Event.logDebug "Hashes match"
        ∈ compare_hashes [1, 2, 3] (some "AQID") (some (fun data => data))
      ↔ b64encode [1, 2, 3] = "AQID")
    ∧ (Event.logError "Hashes do not match"
          ∈ compare_hashes [1, 2, 3] (some "AQID") (some (fun data => data))
        ↔ b64encode [1, 2, 3] ≠ "AQID")
    ∧ Event.wroteFile (parsePathL "/data/x".toList) [1, 2, 3]
        ∈ download_and_save_file (envOk [1, 2, 3]) "http://h/f.bin"
            (parsePathL "/data/x".toList) (some "AQID") (some (fun data => data)) := by
  have h := verify_match_iff_digest_eq (envOk [1, 2, 3]) "http://h/f.bin"
    (parsePathL "/data/x".toList) [1, 2, 3] "AQID" (fun data => data) rfl rfl
  exact ⟨h.1, h.2.1, h.2.2 rfl⟩

/-- Claim C7: when the fetch of a canonical link raises, no file is written
for that link (the later save attempt raises `NameError` on the unbound
`response`, which is also caught), the failure is logged with the URL and with
the exception object itself, and the worker survives: the next canonical link
of the job is still processed, and a following job in the queue is processed
normally whenever the current job does not hit the unrelated
missing-integrity crash of C1. -/
theorem fetch_failure_is_contained (env : Env) (url : String) (p : PyPath)
    (e : Option String) (hf : Option HashFn) (cause : String)
    (hex : env.fileExists p = false) (hfail : env.fetch url = Except.error cause) :
    (∀ q data, Event.wroteFile q data ∉ download_and_save_file env url p e hf)
    ∧ Event.logError ("Error downloading " ++ url)
        ∈ download_and_save_file env url p e hf
    ∧ Event.logErrorCause cause ∈ download_and_save_file env url p e hf
    ∧ (∀ (l : Link) (rest : List Link), l.rel = "canonical" →
        download_links env (l :: rest) p e hf
          = download_and_save_file env l.href p e hf
            ++ download_links env rest p e hf)
    ∧ (∀ (hashlib : String → Option HashFn) (subs : List (String × String))
        (download_dir : String) (y m d : Nat) (job : Job) (rest : List Job),
        get_expected_hash hashlib job ≠ none →
        download_worker hashlib env subs download_dir y m d (job :: rest)
          = ((download_worker_step hashlib env subs download_dir y m d
                job).toOption.getD []
              ++ (download_worker hashlib env subs download_dir y m d rest).1,
             (download_worker hashlib env subs download_dir y m d rest).2)) := by
  have hdl : download_and_save_file env url p e hf
      = [Event.logAttempt url, Event.httpGet url,
         Event.logError ("Error downloading " ++ url), Event.logErrorCause cause,
         Event.logError "Error saving to disk",
         Event.logErrorCause "NameError: name response is not defined"] := by
    simp [download_and_save_file, hex, hfail]
  refine ⟨?_, ?_, ?_, ?_, ?_⟩
  · intro q data
    rw [hdl]
    simp
  · rw [hdl]; simp
  · rw [hdl]; simp
  · intro l rest hcanon
    have : (l.rel == "canonical") = true := by simp [hcanon]
    simp [download_links, List.filter_cons, this]
  · intro hashlib subs download_dir y m d job rest hgeh
    cases hg : get_expected_hash hashlib job with
    | none => exact absurd hg hgeh
    | some pr =>
      cases pr with
      | mk expected hfun =>
        simp [download_worker, download_worker_step, hg, Except.toOption]

/-- Witness for C7: a concrete failing fetch, a second canonical link, and a
following job with an integrity block. -/
theorem fetch_failure_is_contained_witness :
    Event.wroteFile (parsePathL "/data/x".toList) [1, 2, 3]
        ∉ download_and_save_file envFetchFail "http://h/f.bin"
            (parsePathL "/data/x".toList) none none
    ∧ Event.logError ("Error downloading " ++ "http://h/f.bin")
        ∈ download_and_save_file envFetchFail "http://h/f.bin"
            (parsePathL "/data/x".toList) none none
    ∧ Event.logErrorCause "connection refused"
        ∈ download_and_save_file envFetchFail "http://h/f.bin"
            (parsePathL "/data/x".toList) none none
    ∧ download_links envFetchFail
          [⟨"canonical", "http://h/f.bin"⟩, ⟨"canonical", "http://h/g.bin"⟩]
          (parsePathL "/data/x".toList) none none
        = download_and_save_file envFetchFail "http://h/f.bin"
            (parsePathL "/data/x".toList) none none
          ++ download_links envFetchFail [⟨"canonical", "http://h/g.bin"⟩]
              (parsePathL "/data/x".toList) none none
    ∧ download_worker hashlibFix envFetchFail [] "/data" 2024 3 5
          [jobWithIntegrity, jobWithIntegrity]
        = ((download_worker_step hashlibFix envFetchFail [] "/data" 2024 3 5
              jobWithIntegrity).toOption.getD []
            ++ (download_worker hashlibFix envFetchFail [] "/data" 2024 3 5
                  [jobWithIntegrity]).1,
           (download_worker hashlibFix envFetchFail [] "/data" 2024 3 5
              [jobWithIntegrity]).2) := by
  have h := fetch_failure_is_contained envFetchFail "http://h/f.bin"
    (parsePathL "/data/x".toList) none none "connection refused" rfl rfl
  exact ⟨h.1 (parsePathL "/data/x".toList) [1, 2, 3], h.2.1, h.2.2.1,
    h.2.2.2.1 ⟨"canonical", "http://h/f.bin"⟩ [⟨"canonical", "http://h/g.bin"⟩] rfl,
    h.2.2.2.2 hashlibFix [] "/data" 2024 3 5 jobWithIntegrity [jobWithIntegrity]
      (by simp [get_expected_hash, jobWithIntegrity])⟩

/-! ### Dictionary lemmas for the control plane -/

theorem dictContains_false_filter (subs : List (String × String)) (t : String)
    (h : dictContains subs t = false) :
    subs.filter (fun p => p.1 == t) = [] := by
  rw [List.filter_eq_nil_iff]
  intro a hmem hpa
  have hsome : (subs.find? (fun p => p.1 == t)).isSome := by
    rw [List.find?_isSome]
    exact ⟨a, hmem, hpa⟩
  have h' : (subs.find? (fun p => p.1 == t)).isSome = false := h
  rw [h'] at hsome
  simp at hsome

theorem dictContains_append_self (xs : List (String × String)) (t d : String) :
    dictContains (xs ++ [(t, d)]) t = true := by
  have hsome : ((xs ++ [(t, d)]).find? (fun p => p.1 == t)).isSome := by
    rw [List.find?_isSome]
    exact ⟨(t, d), by simp, by simp⟩
  exact hsome

/-- Claim C8: `add` is idempotent.  When the topic is already present the
handler only logs (no overwrite, no transport subscribe call); when it is
absent it appends exactly one table entry and issues exactly one subscribe
call; hence two consecutive adds of an absent topic leave one table entry for
the topic and one subscribe call in total. -/
theorem add_subscription_idempotent (download_dir t : String)
    (st : ControlState) :
    (dictContains st.subs t = true →
      handle_add_subscription download_dir (some t) st
        = ({ st with logs := st.logs ++ ["Topic " ++ t ++ " already subscribed"] },
           RouteResult.table st.subs))
    ∧ (dictContains st.subs t = false →
        handle_add_subscription download_dir (some t) st
          = ({ st with
                subs := st.subs ++ [(t, download_dir)],
                subscribeCalls := st.subscribeCalls ++ [t] },
             RouteResult.table (st.subs ++ [(t, download_dir)])))
    ∧ (dictContains st.subs t = false →
        (apply_ops download_dir st
            [ControlOp.add (some t), ControlOp.add (some t)]).subs
            = st.subs ++ [(t, download_dir)]
        ∧ (apply_ops download_dir st
            [ControlOp.add (some t), ControlOp.add (some t)]).subscribeCalls
            = st.subscribeCalls ++ [t]
        ∧ countKey (apply_ops download_dir st
            [ControlOp.add (some t), ControlOp.add (some t)]).subs t = 1) := by
  refine ⟨fun h => by simp [handle_add_subscription, h],
    fun h => by simp [handle_add_subscription, h], fun h => ?_⟩
  have h2 : dictContains (st.subs ++ [(t, download_dir)]) t = true :=
    dictContains_append_self st.subs t download_dir
  have happ : apply_ops download_dir st
      [ControlOp.add (some t), ControlOp.add (some t)]
      = { st with
            subs := st.subs ++ [(t, download_dir)],
            subscribeCalls := st.subscribeCalls ++ [t],
            logs := st.logs ++ ["Topic " ++ t ++ " already subscribed"] } := by
    simp [apply_ops, apply_op, handle_add_subscription, h, h2]
  refine ⟨by rw [happ], by rw [happ], ?_⟩
  rw [happ]
  show countKey (st.subs ++ [(t, download_dir)]) t = 1
  rw [countKey, List.filter_append, dictContains_false_filter st.subs t h]
  simp

/-- Witness for C8: adding topic `"b"` twice to a table holding only `"a"`. -/
theorem add_subscription_idempotent_witness :
    dictContains [("a", "/data")] "b" = false
    ∧ handle_add_subscription "/data" (some "b") ⟨[("a", "/data")], [], [], []⟩
        = ({ subs := [("a", "/data"), ("b", "/data")],
             subscribeCalls := ["b"], unsubscribeCalls := [], logs := [] },
           RouteResult.table [("a", "/data"), ("b", "/data")])
    ∧ (apply_ops "/data" ⟨[("a", "/data")], [], [], []⟩
        [ControlOp.add (some "b"), ControlOp.add (some "b")]).subs
        = [("a", "/data"), ("b", "/data")]
    ∧ (apply_ops "/data" ⟨[("a", "/data")], [], [], []⟩
        [ControlOp.add (some "b"), ControlOp.add (some "b")]).subscribeCalls
        = ["b"]
    ∧ countKey (apply_ops "/data" ⟨[("a", "/data")], [], [], []⟩
        [ControlOp.add (some "b"), ControlOp.add (some "b")]).subs "b" = 1 := by
  have h := add_subscription_idempotent "/data" "b" ⟨[("a", "/data")], [], [], []⟩
  exact ⟨by decide, h.2.1 (by decide), (h.2.2 (by decide)).1,
    (h.2.2 (by decide)).2.1, (h.2.2 (by decide)).2.2⟩

/-- Claim C9: `delete` issues the transport unsubscribe call before the
membership test, hence unconditionally; on an absent topic the table is
unchanged, the not-found message is logged, and the handler still returns the
table (no error value, no exception). -/
theorem delete_unsubscribes_unconditionally (t : String) (st : ControlState) :
    (handle_delete_subscription (some t) st).1.unsubscribeCalls
        = st.unsubscribeCalls ++ [t]
    ∧ (dictContains st.subs t = false →
        (handle_delete_subscription (some t) st).1.subs = st.subs
        ∧ ("Topic " ++ t ++ " not found")
            ∈ (handle_delete_subscription (some t) st).1.logs
        ∧ (handle_delete_subscription (some t) st).2
            = RouteResult.table st.subs) := by
  by_cases hc : dictContains st.subs t
  · refine ⟨by simp [handle_delete_subscription, hc], fun h => ?_⟩
    rw [h] at hc
    simp at hc
  · have hc' : dictContains st.subs t = false := by simpa using hc
    refine ⟨by simp [handle_delete_subscription, hc'], fun _ => ⟨?_, ?_, ?_⟩⟩
    · simp [handle_delete_subscription, hc']
    · simp [handle_delete_subscription, hc']
    · simp [handle_delete_subscription, hc']

/-- Witness for C9: deleting the never-subscribed topic `"a"` from an empty
table. -/
theorem delete_unsubscribes_unconditionally_witness :
    (handle_delete_subscription (some "a") ⟨[], [], [], []⟩).1.unsubscribeCalls
        = [] ++ ["a"]
    ∧ ((handle_delete_subscription (some "a") ⟨[], [], [], []⟩).1.subs = []
        ∧ ("Topic " ++ "a" ++ " not found")
            ∈ (handle_delete_subscription (some "a") ⟨[], [], [], []⟩).1.logs
        ∧ (handle_delete_subscription (some "a") ⟨[], [], [], []⟩).2
            = RouteResult.table []) := by
  have h := delete_unsubscribes_unconditionally "a" ⟨[], [], [], []⟩
  exact ⟨h.1, h.2 rfl⟩

/-! ### Lemmas for the table-value invariant (claim C10) -/

theorem apply_op_preserves_values (download_dir : String) (st : ControlState)
    (op : ControlOp) (h : ∀ p ∈ st.subs, p.2 = download_dir) :
    ∀ p ∈ (apply_op download_dir st op).subs, p.2 = download_dir := by
  cases op with
  | add topic =>
    cases topic with
    | none => exact h
    | some t =>
      by_cases hc : dictContains st.subs t
      · simpa [apply_op, handle_add_subscription, hc] using h
      · intro p hp
        have hc' : dictContains st.subs t = false := by simpa using hc
        have hp' : p ∈ st.subs ++ [(t, download_dir)] := by
          simpa [apply_op, handle_add_subscription, hc'] using hp
        rcases List.mem_append.mp hp' with hmem | hmem
        · exact h p hmem
        · rcases List.mem_singleton.mp hmem with rfl
          rfl
  | del topic =>
    cases topic with
    | none => exact h
    | some t =>
      by_cases hc : dictContains st.subs t
      · intro p hp
        have hp' : p ∈ dictDelete st.subs t := by
          simpa [apply_op, handle_delete_subscription, hc] using hp
        exact h p (List.mem_of_mem_filter hp')
      · intro p hp
        have hc' : dictContains st.subs t = false := by simpa using hc
        have hp' : p ∈ st.subs := by
          simpa [apply_op, handle_delete_subscription, hc'] using hp
        exact h p hp'

theorem apply_ops_preserves_values (download_dir : String)
    (ops : List ControlOp) :
    ∀ st : ControlState, (∀ p ∈ st.subs, p.2 = download_dir) →
      ∀ p ∈ (apply_ops download_dir st ops).subs, p.2 = download_dir := by
  induction ops with
  | nil => exact fun st h => h
  | cons op ops ih =>
    intro st h
    exact ih (apply_op download_dir st op)
      (apply_op_preserves_values download_dir st op h)

theorem init_subs_values (download_dir : String) (topics : List String) :
    ∀ p ∈ (init_subs topics download_dir).subs, p.2 = download_dir := by
  have key : ∀ (ts : List String) (acc : List (String × String)),
      (∀ p ∈ acc, p.2 = download_dir) →
      ∀ p ∈ ts.foldl
        (fun m t => if dictContains m t then m else m ++ [(t, download_dir)])
        acc, p.2 = download_dir := by
    intro ts
    induction ts with
    | nil => exact fun acc h => h
    | cons t ts ih =>
      intro acc h
      apply ih
      by_cases hc : dictContains acc t
      · simpa [hc] using h
      · intro p hp
        have hc' : dictContains acc t = false := by simpa using hc
        have hp' : p ∈ acc ++ [(t, download_dir)] := by
          simpa [hc'] using hp
        rcases List.mem_append.mp hp' with hmem | hmem
        · exact h p hmem
        · rcases List.mem_singleton.mp hmem with rfl
          rfl
  exact key topics [] (by simp)

/-- Claim C10 (invariant): the table is seeded mapping every configured topic
to the single startup download directory, `add` only ever inserts with that
same directory, and `delete` only removes — so after any sequence of
control-plane operations every value in the subscription table is the startup
default download directory. -/
theorem subscription_values_always_default (download_dir : String)
    (topics : List String) (ops : List ControlOp) :
    ∀ p ∈ (apply_ops download_dir (init_subs topics download_dir) ops).subs,
      p.2 = download_dir :=
  apply_ops_preserves_values download_dir ops (init_subs topics download_dir)
    (init_subs_values download_dir topics)

/-- Witness for C10: topic `"b"` added at runtime to a table seeded with
`"a"`, after which `"a"` is deleted; the surviving entry carries the default
directory. -/
theorem subscription_values_always_default_witness :
    ("b", "/data") ∈ (apply_ops "/data" (init_subs ["a"] "/data")
        [ControlOp.add (some "b"), ControlOp.del (some "a")]).subs
    ∧ ("b", "/data").2 = "/data" :=
  ⟨by decide,
   subscription_values_always_default "/data" ["a"]
     [ControlOp.add (some "b"), ControlOp.del (some "a")] ("b", "/data")
     (by decide)⟩

end Wis2
